import Mathlib

/-!
Shallow embedding of the Mifare Classic memory / access-control logic of
`src/app/memory/page.tsx` (repository yuto0226/mifare-tutorial), together
with theorems settling the specification claims about it.

The source file contains two concatenated revisions of the page.  Where the
two revisions define the same function identically (for example
`parseValueBlock`, lines 37 and 1945) a single Lean definition models both;
where they differ, the first revision gets a `V1` suffix.

JavaScript numbers are modelled as `Int` (with explicit wrapping through
`toInt32` / `toUint32` at every bitwise operator, exactly as the JS
semantics prescribes) and possibly-NaN values as `Option Int` (`none` =
NaN).  JS strings are modelled as `List Char`.
-/

namespace Mifare

/-- JS strings are modelled as lists of characters. -/
abbrev Str := List Char

/-- ToUint32: the `x >>> 0` conversion, wrapping into `[0, 2^32)`. -/
def toUint32 (x : Int) : Nat := (x % 4294967296).toNat

/-- ToInt32: the conversion applied by JS to the operands of `<<`, `>>`,
`&`, `^` and `~`, wrapping into `[-2^31, 2^31)`. -/
def toInt32 (x : Int) : Int :=
  if x % 4294967296 < 2147483648 then x % 4294967296
  else x % 4294967296 - 4294967296

/-- JS bitwise NOT `~x`. -/
def jsNot (x : Int) : Int := -(toInt32 x) - 1

/-- JS left shift `x << k` (for a constant in-range shift count `k`). -/
def jsShl (x : Int) (k : Nat) : Int := toInt32 (toInt32 x * 2 ^ k)

/-- JS sign-propagating right shift `x >> k`; on `Int` the arithmetic shift
is floor division, which is what `/` (Euclidean division by a positive
divisor) computes. -/
def jsShr (x : Int) (k : Nat) : Int := toInt32 x / 2 ^ k

/-- JS bitwise AND `x & y`, via the twos-complement bit patterns. -/
def jsAnd (x y : Int) : Int := toInt32 (toUint32 x &&& toUint32 y)

/-- JS bitwise XOR `x ^ y`, via the twos-complement bit patterns. -/
def jsXor (x y : Int) : Int := toInt32 (toUint32 x ^^^ toUint32 y)

/-- A JS number that may be NaN (`none` = NaN). -/
abbrev JSNum := Option Int

/-- ToInt32 on a possibly-NaN number: `ToInt32(NaN) = 0`. -/
def nanToInt32 : JSNum → Int
  | some x => toInt32 x
  | none => 0

/-- ToUint32 on a possibly-NaN number: `ToUint32(NaN) = 0`. -/
def toUint32N : JSNum → Nat
  | some x => toUint32 x
  | none => 0

/-- JS `+` on possibly-NaN numbers: NaN propagates. -/
def jsAddN : JSNum → JSNum → JSNum
  | some x, some y => some (x + y)
  | _, _ => none

/-- JS strict equality `===` on possibly-NaN numbers: `NaN === x` is false. -/
def jsEqN : JSNum → JSNum → Bool
  | some x, some y => x == y
  | _, _ => false

/-- JS `^` on possibly-NaN operands (each operand goes through ToInt32,
which sends NaN to 0). -/
def jsXorN (a b : JSNum) : Int := jsXor (nanToInt32 a) (nanToInt32 b)

/-- Uppercase hex digit for a value below 16. -/
def hexDigitChar (n : Nat) : Char :=
  if n < 10 then Char.ofNat (48 + n) else Char.ofNat (55 + n)

/-- Models `byte.toString(16).padStart(2, '0')` followed by the final
`.toUpperCase()`, for byte values below 256. -/
def byteToHex (b : Nat) : Str := [hexDigitChar (b / 16), hexDigitChar (b % 16)]

/-- Hex string (two uppercase digits per byte) of a byte list. -/
def bytesToHex (bs : List Nat) : Str := bs.flatMap byteToHex

/-- Numeric value of a hex digit character (both cases), `none` otherwise. -/
def hexCharVal (c : Char) : Option Nat :=
  if 48 ≤ c.toNat ∧ c.toNat ≤ 57 then some (c.toNat - 48)
  else if 65 ≤ c.toNat ∧ c.toNat ≤ 70 then some (c.toNat - 55)
  else if 97 ≤ c.toNat ∧ c.toNat ≤ 102 then some (c.toNat - 87)
  else none

/-- Models `parseInt(s, 16)` on a chunk of at most two characters: the
longest hex-digit prefix is parsed, and no leading hex digit yields NaN.
(The `parseInt` whitespace / sign / `0x`-prefix handling is irrelevant for
two-character chunks of the strings arising here and is omitted.) -/
def parseIntHex : Str → JSNum
  | [] => none
  | c :: rest =>
    match hexCharVal c with
    | none => none
    | some h =>
      match rest with
      | [] => some h
      | d :: _ =>
        match hexCharVal d with
        | none => some h
        | some l => some (16 * h + l)

/-- Line terminators, which `.` in a JS regex does not match. -/
def isLineTerminator (c : Char) : Bool :=
  c.toNat = 10 || c.toNat = 13 || c.toNat = 8232 || c.toNat = 8233

/-- Models `s.match(/.{2}/g)` (with `null` collapsing to `[]`): scan left to
right, at each position matching two consecutive non-line-terminator
characters, otherwise advancing one character. -/
def matchPairs : Str → List Str
  | [] => []
  | [_] => []
  | c1 :: c2 :: rest =>
    if isLineTerminator c1 then matchPairs (c2 :: rest)
    else if isLineTerminator c2 then matchPairs rest
    else [c1, c2] :: matchPairs rest

/-- Little-endian 32-bit read: models
`(b0 + (b1 << 8) + (b2 << 16) + (b3 << 24)) >>> 0`. -/
def leWord (b0 b1 b2 b3 : JSNum) : Nat :=
  toUint32N (jsAddN (jsAddN (jsAddN b0 (some (jsShl (nanToInt32 b1) 8)))
    (some (jsShl (nanToInt32 b2) 16))) (some (jsShl (nanToInt32 b3) 24)))

/-- Decoded value-block record (source lines 61-76 and 1969-1984); the
nested `validationErrors` object is flattened into the four `err` prefixed fields. -/
structure ValueBlockRecord where
  value : Nat
  valueInverted : Nat
  valueBackup : Nat
  addr : JSNum
  addrInverted : JSNum
  addrBackup : JSNum
  addrInvertedBackup : JSNum
  isValid : Bool
  errValueInverted : Bool
  errValueBackup : Bool
  errAddrInverted : Bool
  errAddrBackup : Bool
deriving DecidableEq, Repr

/-- Embedding of `parseValueBlock` (source lines 37-77, identical second
copy at lines 1945-1985): `null` is `none`. -/
def parseValueBlock (data : Str) : Option ValueBlockRecord :=
  if data.length ≠ 32 then none
  else
    let bytes := (matchPairs data).map parseIntHex
    if bytes.length ≠ 16 then none
    else
      let value := leWord (bytes.getD 0 none) (bytes.getD 1 none)
        (bytes.getD 2 none) (bytes.getD 3 none)
      let valueInverted := leWord (bytes.getD 4 none) (bytes.getD 5 none)
        (bytes.getD 6 none) (bytes.getD 7 none)
      let valueBackup := leWord (bytes.getD 8 none) (bytes.getD 9 none)
        (bytes.getD 10 none) (bytes.getD 11 none)
      let addr := bytes.getD 12 none
      let addrInverted := bytes.getD 13 none
      let addrBackup := bytes.getD 14 none
      let addrInvertedBackup := bytes.getD 15 none
      let valueValid := toUint32 (jsXor value valueInverted) == 4294967295
      let valueBackupValid := value == valueBackup
      let addrValid := jsXorN addr addrInverted == 255
      let addrBackupValid := jsEqN addr addrBackup && jsEqN addrInverted addrInvertedBackup
      some {
        value := value
        valueInverted := valueInverted
        valueBackup := valueBackup
        addr := addr
        addrInverted := addrInverted
        addrBackup := addrBackup
        addrInvertedBackup := addrInvertedBackup
        isValid := valueValid && valueBackupValid && addrValid && addrBackupValid
        errValueInverted := !valueValid
        errValueBackup := !valueBackupValid
        errAddrInverted := !addrValid
        errAddrBackup := !addrBackupValid }

/-- Embedding of `createValueBlock` (source lines 80-115, identical second
copy at lines 1988-2023).  The final
`map(b => b.toString(16).padStart(2, '0')).join('').toUpperCase()` is
modelled by `byteToHex` per byte; every entry of `blockData` lies in
`[0, 255]`, where that model is exact. -/
def createValueBlock (value : Int) (address : Int) : Str :=
  let val := toUint32 value
  let valInverted := toUint32 (jsNot val)
  let addr := jsAnd address 255
  let addrInverted := jsAnd (jsNot addr) 255
  let valueBytes := [jsAnd val 255, jsAnd (jsShr val 8) 255,
    jsAnd (jsShr val 16) 255, jsAnd (jsShr val 24) 255]
  let valueInvertedBytes := [jsAnd valInverted 255, jsAnd (jsShr valInverted 8) 255,
    jsAnd (jsShr valInverted 16) 255, jsAnd (jsShr valInverted 24) 255]
  let blockData := valueBytes ++ valueInvertedBytes ++ valueBytes ++
    [addr, addrInverted, addr, addrInverted]
  blockData.flatMap (fun b => byteToHex b.toNat)


/-- Little-endian recombination, for stating decoded fields. -/
def leN (b0 b1 b2 b3 : Nat) : Nat := b0 + 256 * b1 + 65536 * b2 + 16777216 * b3


/-- Structured value for the `throw new Error(...)` cases of the encoders. -/
inductive AccessBitsError where
  | rangeError (slot : Nat) (value : Int)
  | formatError (input : Str)
deriving DecidableEq, Repr

/-- Byte-level core shared by the access-bits encoder: the three bytes built
from the four per-slot C1 C2 C3 bit triples (bits of the code value). -/
def genAccessBytes (v0 v1 v2 v3 : Nat) : Nat × Nat × Nat :=
  let c1 := fun v : Nat => (v >>> 2) &&& 1
  let c2 := fun v : Nat => (v >>> 1) &&& 1
  let c3 := fun v : Nat => v &&& 1
  let byte6 :=
    ((1 - c2 v3) <<< 7) ||| ((1 - c2 v2) <<< 6) ||| ((1 - c2 v1) <<< 5) ||| ((1 - c2 v0) <<< 4) |||
    ((1 - c1 v3) <<< 3) ||| ((1 - c1 v2) <<< 2) ||| ((1 - c1 v1) <<< 1) ||| (1 - c1 v0)
  let byte7 :=
    (c1 v3 <<< 7) ||| (c1 v2 <<< 6) ||| (c1 v1 <<< 5) ||| (c1 v0 <<< 4) |||
    ((1 - c3 v3) <<< 3) ||| ((1 - c3 v2) <<< 2) ||| ((1 - c3 v1) <<< 1) ||| (1 - c3 v0)
  let byte8 :=
    (c3 v3 <<< 7) ||| (c3 v2 <<< 6) ||| (c3 v1 <<< 5) ||| (c3 v0 <<< 4) |||
    (c2 v3 <<< 3) ||| (c2 v2 <<< 2) ||| (c2 v1 <<< 1) ||| c2 v0
  (byte6, byte7, byte8)

/-- Embedding of `generateOfficialAccessBits` (source lines 2026-2058): the
uniform encoder taking a three-character binary string. -/
def generateOfficialAccessBits (c1c2c3 : Str) : Except AccessBitsError Str :=
  match c1c2c3 with
  | [a, b, c] =>
    if (a = '0' ∨ a = '1') ∧ (b = '0' ∨ b = '1') ∧ (c = '0' ∨ c = '1') then
      let c1 := a.toNat - 48
      let c2 := b.toNat - 48
      let c3 := c.toNat - 48
      let notC1 := 1 - c1
      let notC2 := 1 - c2
      let notC3 := 1 - c3
      let byte6 := (notC2 <<< 7) ||| (notC2 <<< 6) ||| (notC2 <<< 5) ||| (notC2 <<< 4) |||
        (notC1 <<< 3) ||| (notC1 <<< 2) ||| (notC1 <<< 1) ||| notC1
      let byte7 := (c1 <<< 7) ||| (c1 <<< 6) ||| (c1 <<< 5) ||| (c1 <<< 4) |||
        (notC3 <<< 3) ||| (notC3 <<< 2) ||| (notC3 <<< 1) ||| notC3
      let byte8 := (c3 <<< 7) ||| (c3 <<< 6) ||| (c3 <<< 5) ||| (c3 <<< 4) |||
        (c2 <<< 3) ||| (c2 <<< 2) ||| (c2 <<< 1) ||| c2
      .ok (byteToHex byte6 ++ byteToHex byte7 ++ byteToHex byte8)
    else .error (.formatError c1c2c3)
  | _ => .error (.formatError c1c2c3)

/-- First slot of the validation loop of `generateAccessBitsByBlocks` that
fails the range check, if any.  The `Number.isInteger` conjunct of the
source condition is always true for `Int`-modelled inputs. -/
def findRangeViolation : Nat → List Int → Option (Nat × Int)
  | _, [] => none
  | i, b :: rest =>
    if b < 0 ∨ 7 < b then some (i, b) else findRangeViolation (i + 1) rest

/-- Embedding of `generateAccessBitsByBlocks` (source lines 2061-2117): the
per-slot encoder; a thrown `Error` is `.error (.rangeError slot value)`. -/
def generateAccessBitsByBlocks (block0 block1 block2 block3 : Int) :
    Except AccessBitsError Str :=
  match findRangeViolation 0 [block0, block1, block2, block3] with
  | some (i, v) => .error (.rangeError i v)
  | none =>
    let bytes := genAccessBytes block0.toNat block1.toNat block2.toNat block3.toNat
    .ok (byteToHex bytes.1 ++ byteToHex bytes.2.1 ++ byteToHex bytes.2.2)

/-- Embedding of `createAccessBitsFromPermissions` (source lines 2884-2926),
which takes the four C1 C2 C3 bit triples directly. -/
def createAccessBitsFromPermissions
    (block0 block1 block2 trailer : Nat × Nat × Nat) : Str :=
  let byte6 :=
    ((1 - trailer.2.1) <<< 7) ||| ((1 - block2.2.1) <<< 6) ||| ((1 - block1.2.1) <<< 5) |||
    ((1 - block0.2.1) <<< 4) ||| ((1 - trailer.1) <<< 3) ||| ((1 - block2.1) <<< 2) |||
    ((1 - block1.1) <<< 1) ||| (1 - block0.1)
  let byte7 :=
    (trailer.1 <<< 7) ||| (block2.1 <<< 6) ||| (block1.1 <<< 5) ||| (block0.1 <<< 4) |||
    ((1 - trailer.2.2) <<< 3) ||| ((1 - block2.2.2) <<< 2) ||| ((1 - block1.2.2) <<< 1) |||
    (1 - block0.2.2)
  let byte8 :=
    (trailer.2.2 <<< 7) ||| (block2.2.2 <<< 6) ||| (block1.2.2 <<< 5) ||| (block0.2.2 <<< 4) |||
    (trailer.2.1 <<< 3) ||| (block2.2.1 <<< 2) ||| (block1.2.1 <<< 1) ||| block0.2.1
  byteToHex byte6 ++ byteToHex byte7 ++ byteToHex byte8

/-- Hex-digit test, modelling the `[0-9A-Fa-f]` character class. -/
def isHexDigit (c : Char) : Bool := (hexCharVal c).isSome

/-- Complement-consistency errors collected by the validation loop of
`validateAccessBits` (source lines 2717-2737): a pair `(blockNum, k)`
records that bit `Ck` of slot `blockNum` disagrees with its complement. -/
def accessBitsComplementErrors (byte6 byte7 byte8 : Nat) : List (Nat × Nat) :=
  (List.range 4).flatMap (fun blockNum =>
    let c1 := (byte7 >>> (4 + blockNum)) &&& 1
    let c2 := (byte8 >>> blockNum) &&& 1
    let c3 := (byte8 >>> (4 + blockNum)) &&& 1
    let notC1 := (byte6 >>> blockNum) &&& 1
    let notC2 := (byte6 >>> (4 + blockNum)) &&& 1
    let notC3 := (byte7 >>> blockNum) &&& 1
    (if c1 ≠ 1 - notC1 then [(blockNum, 1)] else []) ++
    (if c2 ≠ 1 - notC2 then [(blockNum, 2)] else []) ++
    (if c3 ≠ 1 - notC3 then [(blockNum, 3)] else []))

/-- Result of `validateAccessBits`: the source returns `{valid, error?}`;
the error strings are modelled structurally by the offending pairs (empty
for the length / non-hex failure modes, whose messages carry no pairs). -/
structure AccessBitsCheck where
  valid : Bool
  errors : List (Nat × Nat)
deriving DecidableEq, Repr

/-- Models `parseInt(s.substr(i, 2), 16)` on the validated paths, where the
chunk is always two hex digits and `parseInt` never yields NaN. -/
def hexByteAt (s : Str) (i : Nat) : Nat := ((parseIntHex ((s.drop i).take 2)).getD 0).toNat

/-- Embedding of `validateAccessBits` (source lines 2701-2744). -/
def validateAccessBits (accessBits : Str) : AccessBitsCheck :=
  if accessBits.length ≠ 6 then ⟨false, []⟩
  else if ¬(accessBits.all isHexDigit) then ⟨false, []⟩
  else
    let hex := accessBits.map Char.toUpper
    let byte6 := hexByteAt hex 0
    let byte7 := hexByteAt hex 2
    let byte8 := hexByteAt hex 4
    let errors := accessBitsComplementErrors byte6 byte7 byte8
    if errors = [] then ⟨true, []⟩ else ⟨false, errors⟩

/-- String produced by an encoder call embedded in a template literal; on
the literal arguments used by `memoryData` the call always succeeds. -/
def exceptStr (r : Except AccessBitsError Str) : Str :=
  match r with
  | .ok s => s
  | .error _ => []

/-- Embedding of `generateValidAccessBits` (source lines 2858-2872): a mode
map of uniform encodings with fallback to the default mode.  Every map
entry calls `generateOfficialAccessBits` on a valid literal, so the stripped
`.ok` value is exact. -/
def generateValidAccessBits (mode : Str) : Str :=
  let entry : Option Str :=
    if mode = "default".data then some (exceptStr (generateOfficialAccessBits "000".data))
    else if mode = "editable".data then some (exceptStr (generateOfficialAccessBits "001".data))
    else if mode = "readonly".data then some (exceptStr (generateOfficialAccessBits "010".data))
    else if mode = "keyb_write".data then some (exceptStr (generateOfficialAccessBits "011".data))
    else if mode = "keyb_control".data then some (exceptStr (generateOfficialAccessBits "100".data))
    else if mode = "locked_keyb".data then some (exceptStr (generateOfficialAccessBits "101".data))
    else if mode = "fully_locked".data then some (exceptStr (generateOfficialAccessBits "110".data))
    else if mode = "permanent_lock".data then some (exceptStr (generateOfficialAccessBits "111".data))
    else none
  entry.getD (exceptStr (generateOfficialAccessBits "000".data))

/-- Models `s.padStart(n, c)`. -/
def padStart (s : Str) (n : Nat) (c : Char) : Str := List.replicate (n - s.length) c ++ s

/-- Per-slot result of the block-bit extraction of `parseAccessBitsByBlock`
(source lines 2953-2979); the `debug` object, which repeats the other
fields, is omitted. -/
structure SlotBits where
  c1 : Nat
  c2 : Nat
  c3 : Nat
  value : Nat
  valid : Bool
deriving DecidableEq, Repr

/-- Embedding of the inner `extractBlockBits` of the second
`parseAccessBitsByBlock` (source lines 2953-2979). -/
def extractBlockBits (byte6 byte7 byte8 blockNum : Nat) : SlotBits :=
  let c1 := (byte7 >>> (4 + blockNum)) &&& 1
  let c2 := (byte8 >>> blockNum) &&& 1
  let c3 := (byte8 >>> (4 + blockNum)) &&& 1
  let notC1 := (byte6 >>> blockNum) &&& 1
  let notC2 := (byte6 >>> (4 + blockNum)) &&& 1
  let notC3 := (byte7 >>> blockNum) &&& 1
  { c1 := c1, c2 := c2, c3 := c3
    value := c1 * 4 + c2 * 2 + c3
    valid := (c1 == 1 - notC1) && (c2 == 1 - notC2) && (c3 == 1 - notC3) }

/-- Key-slot permission pair of the sector-trailer table rows. -/
structure KeyPerm where
  read : String
  write : String
deriving DecidableEq, Repr

/-- Row shape of `SECTOR_TRAILER_ACCESS_CONDITIONS`. -/
structure TrailerCondition where
  keyA : KeyPerm
  accessBits : KeyPerm
  keyB : KeyPerm
  description : String
deriving DecidableEq, Repr

/-- Row shape of `DATA_BLOCK_ACCESS_CONDITIONS`. -/
structure DataCondition where
  read : String
  write : String
  increment : String
  decrement : String
  description : String
deriving DecidableEq, Repr

/-- Embedding of the `SECTOR_TRAILER_ACCESS_CONDITIONS` literal object
(source lines 2747-2796), keyed by the three-character binary code. -/
def SECTOR_TRAILER_ACCESS_CONDITIONS (key : String) : Option TrailerCondition :=
  if key = "000" then some ⟨⟨"禁止", "Key A"⟩, ⟨"Key A", "禁止"⟩, ⟨"Key A", "Key A"⟩,
    "默認配置，Key A 可讀寫 Key B 和 Access Bits（不可修改）"⟩
  else if key = "001" then some ⟨⟨"禁止", "Key A"⟩, ⟨"Key A", "Key A"⟩, ⟨"Key A", "Key A"⟩,
    "Key A 可完全控制，可修改 Access Bits"⟩
  else if key = "010" then some ⟨⟨"禁止", "禁止"⟩, ⟨"Key A", "禁止"⟩, ⟨"Key A", "禁止"⟩,
    "只讀模式，無法修改任何金鑰或 Access Bits"⟩
  else if key = "011" then some ⟨⟨"禁止", "Key B"⟩, ⟨"Key A|Key B", "Key B"⟩, ⟨"禁止", "Key B"⟩,
    "Key B 可寫入，雙金鑰可讀取 Access Bits"⟩
  else if key = "100" then some ⟨⟨"禁止", "Key B"⟩, ⟨"Key A|Key B", "禁止"⟩, ⟨"禁止", "Key B"⟩,
    "Key B 可寫入金鑰，但 Access Bits 不可修改"⟩
  else if key = "101" then some ⟨⟨"禁止", "禁止"⟩, ⟨"Key A|Key B", "Key B"⟩, ⟨"禁止", "禁止"⟩,
    "金鑰完全鎖定，只有 Key B 可修改 Access Bits"⟩
  else if key = "110" then some ⟨⟨"禁止", "禁止"⟩, ⟨"Key A|Key B", "禁止"⟩, ⟨"禁止", "禁止"⟩,
    "完全鎖定，只能讀取 Access Bits"⟩
  else if key = "111" then some ⟨⟨"禁止", "禁止"⟩, ⟨"Key A|Key B", "禁止"⟩, ⟨"禁止", "禁止"⟩,
    "完全鎖定，只能讀取 Access Bits"⟩
  else none

/-- Embedding of the `DATA_BLOCK_ACCESS_CONDITIONS` literal object
(source lines 2799-2856), keyed by the three-character binary code. -/
def DATA_BLOCK_ACCESS_CONDITIONS (key : String) : Option DataCondition :=
  if key = "000" then some ⟨"Key A|Key B", "Key A|Key B", "Key A|Key B", "Key A|Key B",
    "完全開放，雙金鑰均可存取"⟩
  else if key = "001" then some ⟨"Key A|Key B", "禁止", "禁止", "Key A|Key B",
    "讀寫分離，僅允許減值"⟩
  else if key = "010" then some ⟨"Key A|Key B", "禁止", "禁止", "禁止", "唯讀模式"⟩
  else if key = "011" then some ⟨"Key B", "Key B", "禁止", "禁止", "僅 Key B 可讀寫"⟩
  else if key = "100" then some ⟨"Key A|Key B", "Key B", "禁止", "禁止",
    "雙金鑰可讀，僅 Key B 可寫"⟩
  else if key = "101" then some ⟨"Key B", "禁止", "禁止", "禁止", "僅 Key B 可讀"⟩
  else if key = "110" then some ⟨"Key A|Key B", "Key B", "Key B", "Key A|Key B",
    "Key B 可寫入和增值，雙金鑰可減值"⟩
  else if key = "111" then some ⟨"禁止", "禁止", "禁止", "禁止", "完全禁止"⟩
  else none

/-- Trailer-branch row of the first-revision `getPermissionsByBits` switch
(source lines 715-736). -/
structure TrailerPermV1 where
  readA : String
  writeA : String
  readAccessBits : String
  writeAccessBits : String
  readB : String
  writeB : String
deriving DecidableEq, Repr

/-- Data-branch row of the first-revision `getPermissionsByBits` switch
(source lines 737-759). -/
structure DataPermV1 where
  read : String
  write : String
  increment : String
  decrement : String
deriving DecidableEq, Repr

/-- Embedding of the trailer branch of the first-revision
`getPermissionsByBits` (source lines 715-736). -/
def getPermissionsByBitsV1Trailer (c1 c2 c3 : Nat) : TrailerPermV1 :=
  match c1 * 4 + c2 * 2 + c3 with
  | 0 => ⟨"A", "禁止", "A", "B", "禁止", "B"⟩
  | 1 => ⟨"A", "A", "A", "A", "A", "A"⟩
  | 2 => ⟨"禁止", "禁止", "A", "B", "禁止", "B"⟩
  | 3 => ⟨"A", "A", "A", "A", "禁止", "A"⟩
  | 4 => ⟨"A", "A", "A", "A", "A", "A"⟩
  | 5 => ⟨"禁止", "禁止", "A", "B", "禁止", "B"⟩
  | 6 => ⟨"A", "A", "A", "A", "禁止", "A"⟩
  | 7 => ⟨"禁止", "禁止", "A", "A", "禁止", "A"⟩
  | _ => ⟨"錯誤", "錯誤", "錯誤", "錯誤", "錯誤", "錯誤"⟩

/-- Embedding of the data branch of the first-revision
`getPermissionsByBits` (source lines 737-759). -/
def getPermissionsByBitsV1Data (c1 c2 c3 : Nat) : DataPermV1 :=
  match c1 * 4 + c2 * 2 + c3 with
  | 0 => ⟨"A/B", "A/B", "A/B", "A/B"⟩
  | 1 => ⟨"B", "B", "B", "B"⟩
  | 2 => ⟨"公開", "A/B", "A/B", "A/B"⟩
  | 3 => ⟨"B", "A/B", "A/B", "A/B"⟩
  | 4 => ⟨"A/B", "禁止", "禁止", "禁止"⟩
  | 5 => ⟨"B", "禁止", "禁止", "禁止"⟩
  | 6 => ⟨"B", "B", "B", "B"⟩
  | 7 => ⟨"禁止", "禁止", "禁止", "禁止"⟩
  | _ => ⟨"錯誤", "錯誤", "錯誤", "錯誤"⟩

/-- Binary-string key `${c1}${c2}${c3}` built by the second-revision
`getPermissionsByBits`; exact for bit-valued arguments, which is the only
way it is invoked. -/
def bitsKey (c1 c2 c3 : Nat) : String :=
  String.mk [Char.ofNat (48 + c1), Char.ofNat (48 + c2), Char.ofNat (48 + c3)]

/-- Data-branch output of the second-revision `getPermissionsByBits`
(source lines 2997-3010 and 3021-3025). -/
structure DataPermOut where
  read : String
  write : String
  increment : String
  decrement : String
  description : String
  binaryValue : String
deriving DecidableEq, Repr

/-- Trailer-branch output of the second-revision `getPermissionsByBits`
(source lines 2985-2996 and 3013-3020). -/
structure TrailerPermOut where
  keyA : KeyPerm
  accessBits : KeyPerm
  keyB : KeyPerm
  description : String
  binaryValue : String
deriving DecidableEq, Repr

/-- Embedding of the data branch of the second-revision
`getPermissionsByBits` (source lines 2982-3026, `isTrailer = false`). -/
def getPermissionsByBitsData (c1 c2 c3 : Nat) : DataPermOut :=
  let binaryString := bitsKey c1 c2 c3
  match DATA_BLOCK_ACCESS_CONDITIONS binaryString with
  | some c => ⟨c.read, c.write, c.increment, c.decrement, c.description, binaryString⟩
  | none => ⟨"錯誤", "錯誤", "錯誤", "錯誤", "未知的存取條件: " ++ binaryString, binaryString⟩

/-- Embedding of the trailer branch of the second-revision
`getPermissionsByBits` (source lines 2982-3026, `isTrailer = true`). -/
def getPermissionsByBitsTrailer (c1 c2 c3 : Nat) : TrailerPermOut :=
  let binaryString := bitsKey c1 c2 c3
  match SECTOR_TRAILER_ACCESS_CONDITIONS binaryString with
  | some c => ⟨c.keyA, c.accessBits, c.keyB, c.description, binaryString⟩
  | none => ⟨⟨"錯誤", "錯誤"⟩, ⟨"錯誤", "錯誤"⟩, ⟨"錯誤", "錯誤"⟩,
      "未知的存取條件: " ++ binaryString, binaryString⟩

/-- Data-slot entry of the `parseAccessBitsByBlock` result. -/
structure ParsedSlotData where
  bits : SlotBits
  permissions : DataPermOut
deriving DecidableEq, Repr

/-- Trailer-slot entry of the `parseAccessBitsByBlock` result. -/
structure ParsedSlotTrailer where
  bits : SlotBits
  permissions : TrailerPermOut
deriving DecidableEq, Repr

/-- Result of the second-revision `parseAccessBitsByBlock`
(source lines 3034-3053). -/
structure AccessBitsParse where
  rawBytes : Nat × Nat × Nat
  block0 : ParsedSlotData
  block1 : ParsedSlotData
  block2 : ParsedSlotData
  trailer : ParsedSlotTrailer
  isValidFormat : Bool
deriving DecidableEq, Repr

/-- Embedding of the second-revision `parseAccessBitsByBlock` (source
lines 2929-3054): invalid input is silently replaced by the default
access bits before parsing (the `console.warn` calls are pure logging). -/
def parseAccessBitsByBlock (accessBits : Str) : AccessBitsParse :=
  let validation := validateAccessBits accessBits
  let input := if validation.valid then accessBits else generateValidAccessBits "default".data
  let hex := padStart input 6 '0'
  let byte6 := hexByteAt hex 0
  let byte7 := hexByteAt hex 2
  let byte8 := hexByteAt hex 4
  let block0Bits := extractBlockBits byte6 byte7 byte8 0
  let block1Bits := extractBlockBits byte6 byte7 byte8 1
  let block2Bits := extractBlockBits byte6 byte7 byte8 2
  let trailerBits := extractBlockBits byte6 byte7 byte8 3
  { rawBytes := (byte6, byte7, byte8)
    block0 := ⟨block0Bits, getPermissionsByBitsData block0Bits.c1 block0Bits.c2 block0Bits.c3⟩
    block1 := ⟨block1Bits, getPermissionsByBitsData block1Bits.c1 block1Bits.c2 block1Bits.c3⟩
    block2 := ⟨block2Bits, getPermissionsByBitsData block2Bits.c1 block2Bits.c2 block2Bits.c3⟩
    trailer := ⟨trailerBits, getPermissionsByBitsTrailer trailerBits.c1 trailerBits.c2 trailerBits.c3⟩
    isValidFormat := true }


/-- First output byte (b6) of the byte-level encoder core. -/
def genByte6 (v0 v1 v2 v3 : Nat) : Nat := (genAccessBytes v0 v1 v2 v3).1

/-- Second output byte (b7) of the byte-level encoder core. -/
def genByte7 (v0 v1 v2 v3 : Nat) : Nat := (genAccessBytes v0 v1 v2 v3).2.1

/-- Third output byte (b8) of the byte-level encoder core. -/
def genByte8 (v0 v1 v2 v3 : Nat) : Nat := (genAccessBytes v0 v1 v2 v3).2.2


/-- Slot selector: the permission code of block slot `n`. -/
def slotCode (v0 v1 v2 v3 n : Nat) : Nat := [v0, v1, v2, v3].getD n 0

/-- C1 C2 C3 bit triple of a permission code. -/
def bitsOf (v : Nat) : Nat × Nat × Nat := ((v >>> 2) &&& 1, (v >>> 1) &&& 1, v &&& 1)


/-- Permission value domain of the specification tables. -/
inductive SpecPerm where
  | keyA
  | keyB
  | keyAorB
  | publicAccess
  | forbidden
deriving DecidableEq, Repr

/-- Data-block row of the specification Table 6. -/
structure SpecDataRow where
  read : SpecPerm
  write : SpecPerm
  increment : SpecPerm
  decrement : SpecPerm
deriving DecidableEq, Repr

/-- Read / write pair of the specification Table 7. -/
structure SpecKeyRW where
  read : SpecPerm
  write : SpecPerm
deriving DecidableEq, Repr

/-- Sector-trailer row of the specification Table 7. -/
structure SpecTrailerRow where
  keyA : SpecKeyRW
  accessBits : SpecKeyRW
  keyB : SpecKeyRW
deriving DecidableEq, Repr

/-- Modelled from the spec: Table 6 of `spec.md` §4.2 (data blocks). -/
def specDataTable : Fin 8 → SpecDataRow
  | 0 => ⟨.keyAorB, .keyAorB, .keyAorB, .keyAorB⟩
  | 1 => ⟨.keyAorB, .forbidden, .forbidden, .keyAorB⟩
  | 2 => ⟨.keyAorB, .forbidden, .forbidden, .forbidden⟩
  | 3 => ⟨.keyB, .keyB, .forbidden, .forbidden⟩
  | 4 => ⟨.keyAorB, .keyB, .forbidden, .forbidden⟩
  | 5 => ⟨.keyB, .forbidden, .forbidden, .forbidden⟩
  | 6 => ⟨.keyAorB, .keyB, .keyB, .keyAorB⟩
  | 7 => ⟨.forbidden, .forbidden, .forbidden, .forbidden⟩

/-- Modelled from the spec: Table 7 of `spec.md` §4.2 (sector trailers). -/
def specTrailerTable : Fin 8 → SpecTrailerRow
  | 0 => ⟨⟨.forbidden, .keyA⟩, ⟨.keyA, .forbidden⟩, ⟨.keyA, .keyA⟩⟩
  | 1 => ⟨⟨.forbidden, .keyA⟩, ⟨.keyA, .keyA⟩, ⟨.keyA, .keyA⟩⟩
  | 2 => ⟨⟨.forbidden, .forbidden⟩, ⟨.keyA, .forbidden⟩, ⟨.keyA, .forbidden⟩⟩
  | 3 => ⟨⟨.forbidden, .keyB⟩, ⟨.keyAorB, .keyB⟩, ⟨.forbidden, .keyB⟩⟩
  | 4 => ⟨⟨.forbidden, .keyB⟩, ⟨.keyAorB, .forbidden⟩, ⟨.forbidden, .keyB⟩⟩
  | 5 => ⟨⟨.forbidden, .forbidden⟩, ⟨.keyAorB, .keyB⟩, ⟨.forbidden, .forbidden⟩⟩
  | 6 => ⟨⟨.forbidden, .forbidden⟩, ⟨.keyAorB, .forbidden⟩, ⟨.forbidden, .forbidden⟩⟩
  | 7 => ⟨⟨.forbidden, .forbidden⟩, ⟨.keyAorB, .forbidden⟩, ⟨.forbidden, .forbidden⟩⟩

/-- Reading of the permission strings used across the source file into the
specification value domain (`none` = no specification meaning). -/
def interpPerm (s : String) : Option SpecPerm :=
  if s = "Key A|Key B" then some .keyAorB
  else if s = "A/B" then some .keyAorB
  else if s = "Key A" then some .keyA
  else if s = "A" then some .keyA
  else if s = "Key B" then some .keyB
  else if s = "B" then some .keyB
  else if s = "公開" then some .publicAccess
  else if s = "禁止" then some .forbidden
  else none

/-- Reading of a `DATA_BLOCK_ACCESS_CONDITIONS` row into a spec row. -/
def interpDataCondition (r : DataCondition) : Option SpecDataRow :=
  match interpPerm r.read, interpPerm r.write, interpPerm r.increment, interpPerm r.decrement with
  | some a, some b, some c, some d => some ⟨a, b, c, d⟩
  | _, _, _, _ => none

/-- Reading of a `SECTOR_TRAILER_ACCESS_CONDITIONS` row into a spec row. -/
def interpTrailerCondition (r : TrailerCondition) : Option SpecTrailerRow :=
  match interpPerm r.keyA.read, interpPerm r.keyA.write, interpPerm r.accessBits.read,
    interpPerm r.accessBits.write, interpPerm r.keyB.read, interpPerm r.keyB.write with
  | some a, some b, some c, some d, some e, some f => some ⟨⟨a, b⟩, ⟨c, d⟩, ⟨e, f⟩⟩
  | _, _, _, _, _, _ => none

/-- Reading of a first-revision data row into a spec row. -/
def interpDataV1 (r : DataPermV1) : Option SpecDataRow :=
  match interpPerm r.read, interpPerm r.write, interpPerm r.increment, interpPerm r.decrement with
  | some a, some b, some c, some d => some ⟨a, b, c, d⟩
  | _, _, _, _ => none

/-- Reading of a first-revision trailer row into a spec row. -/
def interpTrailerV1 (r : TrailerPermV1) : Option SpecTrailerRow :=
  match interpPerm r.readA, interpPerm r.writeA, interpPerm r.readAccessBits,
    interpPerm r.writeAccessBits, interpPerm r.readB, interpPerm r.writeB with
  | some a, some b, some c, some d, some e, some f => some ⟨⟨a, b⟩, ⟨c, d⟩, ⟨e, f⟩⟩
  | _, _, _, _, _, _ => none

/-- Table key of a permission code. -/
def codeKey : Fin 8 → String
  | 0 => "000"
  | 1 => "001"
  | 2 => "010"
  | 3 => "011"
  | 4 => "100"
  | 5 => "101"
  | 6 => "110"
  | 7 => "111"


/-- Memory-map entry (the fields of the source `MemoryBlock` interface that
carry data; UI-only fields such as `description` and the key strings are
omitted). -/
structure MemoryBlock where
  block : Nat
  sector : Nat
  address : Nat
  data : Str
  type : String
deriving DecidableEq, Repr

/-- Sector 0 of the second-revision `memoryData` (source lines 2120-2153). -/
def memoryDataSector0 : List MemoryBlock := [
  ⟨0, 0, 0, "deadbeef220804006263646566676869".data, "manufacturer"⟩,
  ⟨1, 0, 1, "00000000000000000000000000000000".data, "data"⟩,
  ⟨2, 0, 2, "00000000000000000000000000000000".data, "data"⟩,
  ⟨3, 0, 3, "FFFFFFFFFFFF".data ++ exceptStr (generateAccessBitsByBlocks 4 4 4 0) ++
    "FFFFFFFFFFFF".data, "trailer"⟩]

/-- Sector-0 trailer data string of the first-revision `memoryData`
(source line 145). -/
def trailerBlockDataV1 : Str := "FFFFFFFFFFFF078069FFFFFFFFFFFF".data


lemma toUint32_of_lt {u : Nat} (h : u < 4294967296) : toUint32 u = u := by
  unfold toUint32; omega

lemma toInt32_of_lt {u : Nat} (h : u < 2147483648) : toInt32 (u : Int) = u := by
  unfold toInt32; omega

lemma toUint32_toInt32 {u : Nat} (h : u < 4294967296) : toUint32 (toInt32 u) = u := by
  unfold toUint32 toInt32; split <;> omega

lemma nat_and_255 (a : Nat) : a &&& 255 = a % 256 := by
  have := Nat.and_pow_two_sub_one_eq_mod a 8
  norm_num at this
  exact this

lemma toUint32_jsXor_nat {x y : Nat} (hx : x < 4294967296) (hy : y < 4294967296) :
    toUint32 (jsXor x y) = x ^^^ y := by
  have hxy : x ^^^ y < 4294967296 := by
    have := Nat.xor_lt_two_pow (n := 32) (by norm_num at hx ⊢; exact hx) (by norm_num at hy ⊢; exact hy)
    norm_num at this; exact this
  unfold jsXor
  rw [toUint32_of_lt hx, toUint32_of_lt hy, toUint32_toInt32 hxy]

lemma xor_two_pow_compl {n u : Nat} (h : u < 2 ^ n) : u ^^^ (2 ^ n - 1 - u) = 2 ^ n - 1 := by
  have h1 : 2 ^ n - 1 - u = 2 ^ n - (u + 1) := by omega
  apply Nat.eq_of_testBit_eq
  intro i
  rw [Nat.testBit_xor, h1, Nat.testBit_two_pow_sub_succ h, Nat.testBit_two_pow_sub_one]
  by_cases hi : i < n
  · simp [hi]
  · have hni : n ≤ i := by omega
    have hui : u < 2 ^ i := Nat.lt_of_lt_of_le h (Nat.pow_le_pow_right (by norm_num) hni)
    simp [hi, Nat.testBit_lt_two_pow hui]


lemma jsShl8_byte {b : Nat} (h : b < 256) : jsShl (b : Int) 8 = 256 * b := by
  unfold jsShl
  rw [toInt32_of_lt (by omega)]
  unfold toInt32
  norm_num
  split_ifs <;> omega

lemma jsShl16_byte {b : Nat} (h : b < 256) : jsShl (b : Int) 16 = 65536 * b := by
  unfold jsShl
  rw [toInt32_of_lt (by omega)]
  unfold toInt32
  norm_num
  split_ifs <;> omega

lemma jsShl24_byte {b : Nat} (h : b < 256) :
    jsShl (b : Int) 24 = 16777216 * b - (if 128 ≤ b then 4294967296 else 0) := by
  unfold jsShl
  rw [toInt32_of_lt (by omega)]
  unfold toInt32
  norm_num
  split_ifs <;> omega

lemma leWord_some {b0 b1 b2 b3 : Nat} (h0 : b0 < 256) (h1 : b1 < 256)
    (h2 : b2 < 256) (h3 : b3 < 256) :
    leWord (some b0) (some b1) (some b2) (some b3) = leN b0 b1 b2 b3 := by
  show _ = b0 + 256 * b1 + 65536 * b2 + 16777216 * b3
  have e1 : nanToInt32 (some (b1 : Int)) = b1 := toInt32_of_lt (by omega)
  have e2 : nanToInt32 (some (b2 : Int)) = b2 := toInt32_of_lt (by omega)
  have e3 : nanToInt32 (some (b3 : Int)) = b3 := toInt32_of_lt (by omega)
  unfold leWord
  rw [e1, e2, e3, jsShl8_byte h1, jsShl16_byte h2, jsShl24_byte h3]
  simp only [jsAddN, toUint32N]
  unfold toUint32
  split_ifs <;> omega

set_option maxRecDepth 4096 in
lemma parseIntHex_byteToHex : ∀ b : Nat, b < 256 → parseIntHex (byteToHex b) = some (b : Int) := by
  decide

lemma hexDigitChar_not_term : ∀ n : Nat, n < 16 → isLineTerminator (hexDigitChar n) = false := by
  decide

lemma bytesToHex_length (bs : List Nat) : (bytesToHex bs).length = 2 * bs.length := by
  induction bs with
  | nil => rfl
  | cons b bs ih =>
    simp [bytesToHex, byteToHex] at ih ⊢
    omega

lemma matchPairs_bytesToHex : ∀ bs : List Nat, (∀ b ∈ bs, b < 256) →
    matchPairs (bytesToHex bs) = bs.map byteToHex := by
  intro bs
  induction bs with
  | nil => intro _; rfl
  | cons b bs ih =>
    intro h
    have hb : b < 256 := h b (by simp)
    have t1 := hexDigitChar_not_term (b / 16) (by omega)
    have t2 := hexDigitChar_not_term (b % 16) (by omega)
    have : bytesToHex (b :: bs) =
        hexDigitChar (b / 16) :: hexDigitChar (b % 16) :: bytesToHex bs := by
      simp [bytesToHex, byteToHex]
    rw [this, matchPairs, t1, t2]
    simp [byteToHex, ih (fun x hx => h x (by simp [hx]))]

lemma leN_lt {b0 b1 b2 b3 : Nat} (h0 : b0 < 256) (h1 : b1 < 256)
    (h2 : b2 < 256) (h3 : b3 < 256) : leN b0 b1 b2 b3 < 4294967296 := by
  unfold leN; omega

lemma beq_natCast_int (m n : Nat) : ((m : Int) == (n : Int)) = (m == n) := by
  by_cases h : m = n <;> simp [h]

lemma jsXorN_byte {x y : Nat} (hx : x < 256) (hy : y < 256) :
    jsXorN (some x) (some y) = ((x ^^^ y : Nat) : Int) := by
  have hxy : x ^^^ y < 256 := Nat.xor_lt_two_pow (n := 8) (by norm_num; omega) (by norm_num; omega)
  simp only [jsXorN, nanToInt32]
  rw [toInt32_of_lt (by omega), toInt32_of_lt (by omega)]
  unfold jsXor
  rw [toUint32_of_lt (by omega), toUint32_of_lt (by omega), toInt32_of_lt (by omega)]

lemma jsEqN_natCast (m n : Nat) : jsEqN (some m) (some n) = (m == n) := by
  unfold jsEqN
  exact beq_natCast_int m n

lemma parseValueBlock_hex (b0 b1 b2 b3 b4 b5 b6 b7 b8 b9 b10 b11 b12 b13 b14 b15 : Nat)
    (h : ∀ x ∈ [b0,b1,b2,b3,b4,b5,b6,b7,b8,b9,b10,b11,b12,b13,b14,b15], x < 256) :
    parseValueBlock (bytesToHex [b0,b1,b2,b3,b4,b5,b6,b7,b8,b9,b10,b11,b12,b13,b14,b15]) = some {
      value := leN b0 b1 b2 b3
      valueInverted := leN b4 b5 b6 b7
      valueBackup := leN b8 b9 b10 b11
      addr := some b12
      addrInverted := some b13
      addrBackup := some b14
      addrInvertedBackup := some b15
      isValid := (leN b0 b1 b2 b3 ^^^ leN b4 b5 b6 b7 == 4294967295) &&
        (leN b0 b1 b2 b3 == leN b8 b9 b10 b11) && (b12 ^^^ b13 == 255) &&
        ((b12 == b14) && (b13 == b15))
      errValueInverted := !(leN b0 b1 b2 b3 ^^^ leN b4 b5 b6 b7 == 4294967295)
      errValueBackup := !(leN b0 b1 b2 b3 == leN b8 b9 b10 b11)
      errAddrInverted := !(b12 ^^^ b13 == 255)
      errAddrBackup := !((b12 == b14) && (b13 == b15)) } := by
  have hb0 : b0 < 256 := h b0 (by simp)
  have hb1 : b1 < 256 := h b1 (by simp)
  have hb2 : b2 < 256 := h b2 (by simp)
  have hb3 : b3 < 256 := h b3 (by simp)
  have hb4 : b4 < 256 := h b4 (by simp)
  have hb5 : b5 < 256 := h b5 (by simp)
  have hb6 : b6 < 256 := h b6 (by simp)
  have hb7 : b7 < 256 := h b7 (by simp)
  have hb8 : b8 < 256 := h b8 (by simp)
  have hb9 : b9 < 256 := h b9 (by simp)
  have hb10 : b10 < 256 := h b10 (by simp)
  have hb11 : b11 < 256 := h b11 (by simp)
  have hb12 : b12 < 256 := h b12 (by simp)
  have hb13 : b13 < 256 := h b13 (by simp)
  have hb14 : b14 < 256 := h b14 (by simp)
  have hb15 : b15 < 256 := h b15 (by simp)
  unfold parseValueBlock
  rw [bytesToHex_length, matchPairs_bytesToHex _ h]
  simp only [List.map_cons, List.map_nil, List.length_cons, List.length_nil]
  rw [parseIntHex_byteToHex _ hb0, parseIntHex_byteToHex _ hb1, parseIntHex_byteToHex _ hb2,
    parseIntHex_byteToHex _ hb3, parseIntHex_byteToHex _ hb4, parseIntHex_byteToHex _ hb5,
    parseIntHex_byteToHex _ hb6, parseIntHex_byteToHex _ hb7, parseIntHex_byteToHex _ hb8,
    parseIntHex_byteToHex _ hb9, parseIntHex_byteToHex _ hb10, parseIntHex_byteToHex _ hb11,
    parseIntHex_byteToHex _ hb12, parseIntHex_byteToHex _ hb13, parseIntHex_byteToHex _ hb14,
    parseIntHex_byteToHex _ hb15]
  simp only [List.getD, List.get?, List.length_cons, List.length_nil]
  norm_num
  rw [leWord_some hb0 hb1 hb2 hb3, leWord_some hb4 hb5 hb6 hb7, leWord_some hb8 hb9 hb10 hb11]
  have exor := toUint32_jsXor_nat (leN_lt hb0 hb1 hb2 hb3) (leN_lt hb4 hb5 hb6 hb7)
  have exor12 := jsXorN_byte hb12 hb13
  have e1214 := jsEqN_natCast b12 b14
  have e1315 := jsEqN_natCast b13 b15
  have c255 : (((b12 ^^^ b13 : Nat) : Int) == 255) = ((b12 ^^^ b13) == 255) := by
    rw [show ((255 : Int)) = ((255 : Nat) : Int) by norm_num, beq_natCast_int]
  simp [exor, exor12, e1214, e1315, c255]
  omega

lemma toUint32_lt (x : Int) : toUint32 x < 4294967296 := by
  unfold toUint32; omega

lemma toUint32_255 : toUint32 255 = 255 := rfl

lemma jsAnd_255_eq (x : Int) : jsAnd x 255 = ((toUint32 x % 256 : Nat) : Int) := by
  unfold jsAnd
  rw [toUint32_255, nat_and_255]
  exact toInt32_of_lt (by omega)

lemma toUint32_jsNot_nat {u : Nat} (h : u < 4294967296) :
    toUint32 (jsNot u) = 4294967295 - u := by
  unfold jsNot toInt32 toUint32
  split_ifs <;> omega

lemma shr_byte8 {u : Nat} (h : u < 4294967296) :
    toUint32 (jsShr (u : Int) 8) % 256 = u / 256 % 256 := by
  unfold jsShr toInt32 toUint32
  norm_num
  split_ifs <;> omega

lemma shr_byte16 {u : Nat} (h : u < 4294967296) :
    toUint32 (jsShr (u : Int) 16) % 256 = u / 65536 % 256 := by
  unfold jsShr toInt32 toUint32
  norm_num
  split_ifs <;> omega

lemma shr_byte24 {u : Nat} (h : u < 4294967296) :
    toUint32 (jsShr (u : Int) 24) % 256 = u / 16777216 % 256 := by
  unfold jsShr toInt32 toUint32
  norm_num
  split_ifs <;> omega

lemma toUint32_natCast_mod (u : Nat) : toUint32 (u : Int) = u % 4294967296 := by
  unfold toUint32; omega

lemma toUint32_neg_succ {a : Nat} (h : a < 256) :
    toUint32 (-(a : Int) - 1) = 4294967295 - a := by
  unfold toUint32; omega

lemma createValueBlock_eq_bytes (v : Int) (a : Nat) (ha : a < 256) :
    createValueBlock v (a : Int) = bytesToHex
      [toUint32 v % 256, toUint32 v / 256 % 256, toUint32 v / 65536 % 256,
       toUint32 v / 16777216 % 256,
       (4294967295 - toUint32 v) % 256, (4294967295 - toUint32 v) / 256 % 256,
       (4294967295 - toUint32 v) / 65536 % 256, (4294967295 - toUint32 v) / 16777216 % 256,
       toUint32 v % 256, toUint32 v / 256 % 256, toUint32 v / 65536 % 256,
       toUint32 v / 16777216 % 256,
       a, 255 - a, a, 255 - a] := by
  have hu := toUint32_lt v
  have hw : 4294967295 - toUint32 v < 4294967296 := by omega
  simp only [createValueBlock]
  rw [toUint32_jsNot_nat hu]
  have eAddr : jsAnd (a : Int) 255 = (a : Int) := by
    rw [jsAnd_255_eq, toUint32_natCast_mod]
    omega
  rw [eAddr]
  have eAddrInv : jsAnd (jsNot (a : Int)) 255 = ((255 - a : Nat) : Int) := by
    unfold jsNot
    rw [toInt32_of_lt (by omega), jsAnd_255_eq, toUint32_neg_succ ha]
    omega
  rw [eAddrInv]
  have e0 : ∀ u : Nat, u < 4294967296 → jsAnd (u : Int) 255 = ((u % 256 : Nat) : Int) := by
    intro u hu2
    rw [jsAnd_255_eq, toUint32_natCast_mod, Nat.mod_eq_of_lt hu2]
  have e8 : ∀ u : Nat, u < 4294967296 →
      jsAnd (jsShr (u : Int) 8) 255 = ((u / 256 % 256 : Nat) : Int) := by
    intro u hu2
    rw [jsAnd_255_eq, shr_byte8 hu2]
  have e16 : ∀ u : Nat, u < 4294967296 →
      jsAnd (jsShr (u : Int) 16) 255 = ((u / 65536 % 256 : Nat) : Int) := by
    intro u hu2
    rw [jsAnd_255_eq, shr_byte16 hu2]
  have e24 : ∀ u : Nat, u < 4294967296 →
      jsAnd (jsShr (u : Int) 24) 255 = ((u / 16777216 % 256 : Nat) : Int) := by
    intro u hu2
    rw [jsAnd_255_eq, shr_byte24 hu2]
  rw [e0 _ hu, e8 _ hu, e16 _ hu, e24 _ hu, e0 _ hw, e8 _ hw, e16 _ hw, e24 _ hw]
  simp only [bytesToHex, List.flatMap_append, List.flatMap_cons, List.flatMap_nil,
    Int.toNat_natCast, List.append_nil, List.nil_append, List.append_assoc, List.cons_append]

lemma xor_compl32 {u : Nat} (h : u < 4294967296) : u ^^^ (4294967295 - u) = 4294967295 := by
  have e : (2 : Nat) ^ 32 = 4294967296 := by norm_num
  have h' : u < 2 ^ 32 := by rw [e]; exact h
  have hx := xor_two_pow_compl h'
  rw [e] at hx
  norm_num at hx
  convert hx using 2 <;> omega

lemma xor_compl8 {u : Nat} (h : u < 256) : u ^^^ (255 - u) = 255 := by
  have e : (2 : Nat) ^ 8 = 256 := by norm_num
  have h' : u < 2 ^ 8 := by rw [e]; exact h
  have hx := xor_two_pow_compl h'
  rw [e] at hx
  norm_num at hx
  convert hx using 2 <;> omega


lemma bitGet (v k : Nat) : (v >>> k) &&& 1 = v / 2 ^ k % 2 := by
  rw [Nat.shiftRight_eq_div_pow, Nat.and_one_is_mod]

lemma bitGet0 (v : Nat) : v &&& 1 = v % 2 := Nat.and_one_is_mod v

lemma shr1 (v : Nat) : v >>> 1 = v / 2 := by
  rw [Nat.shiftRight_eq_div_pow]

lemma shr2 (v : Nat) : v >>> 2 = v / 4 := by
  rw [Nat.shiftRight_eq_div_pow]

set_option maxRecDepth 2048 in
set_option synthInstance.maxSize 1024 in
lemma orBits : ∀ a7 : Nat, a7 ≤ 1 → ∀ a6 : Nat, a6 ≤ 1 → ∀ a5 : Nat, a5 ≤ 1 →
    ∀ a4 : Nat, a4 ≤ 1 → ∀ a3 : Nat, a3 ≤ 1 → ∀ a2 : Nat, a2 ≤ 1 →
    ∀ a1 : Nat, a1 ≤ 1 → ∀ a0 : Nat, a0 ≤ 1 →
    (a7 <<< 7) ||| (a6 <<< 6) ||| (a5 <<< 5) ||| (a4 <<< 4) |||
      (a3 <<< 3) ||| (a2 <<< 2) ||| (a1 <<< 1) ||| a0 =
    128 * a7 + 64 * a6 + 32 * a5 + 16 * a4 + 8 * a3 + 4 * a2 + 2 * a1 + a0 := by
  decide

lemma genByte6_eq (v0 v1 v2 v3 : Nat) :
    genByte6 v0 v1 v2 v3 =
      128 * (1 - v3 / 2 % 2) + 64 * (1 - v2 / 2 % 2) + 32 * (1 - v1 / 2 % 2) +
      16 * (1 - v0 / 2 % 2) + 8 * (1 - v3 / 4 % 2) + 4 * (1 - v2 / 4 % 2) +
      2 * (1 - v1 / 4 % 2) + (1 - v0 / 4 % 2) := by
  simp only [genByte6, genAccessBytes, shr1, shr2, bitGet0]
  exact orBits (1 - v3 / 2 % 2) (by omega) (1 - v2 / 2 % 2) (by omega) (1 - v1 / 2 % 2) (by omega)
    (1 - v0 / 2 % 2) (by omega) (1 - v3 / 4 % 2) (by omega) (1 - v2 / 4 % 2) (by omega)
    (1 - v1 / 4 % 2) (by omega) (1 - v0 / 4 % 2) (by omega)

lemma genByte7_eq (v0 v1 v2 v3 : Nat) :
    genByte7 v0 v1 v2 v3 =
      128 * (v3 / 4 % 2) + 64 * (v2 / 4 % 2) + 32 * (v1 / 4 % 2) + 16 * (v0 / 4 % 2) +
      8 * (1 - v3 % 2) + 4 * (1 - v2 % 2) + 2 * (1 - v1 % 2) + (1 - v0 % 2) := by
  simp only [genByte7, genAccessBytes, shr1, shr2, bitGet0]
  exact orBits (v3 / 4 % 2) (by omega) (v2 / 4 % 2) (by omega) (v1 / 4 % 2) (by omega)
    (v0 / 4 % 2) (by omega) (1 - v3 % 2) (by omega) (1 - v2 % 2) (by omega)
    (1 - v1 % 2) (by omega) (1 - v0 % 2) (by omega)

lemma genByte8_eq (v0 v1 v2 v3 : Nat) :
    genByte8 v0 v1 v2 v3 =
      128 * (v3 % 2) + 64 * (v2 % 2) + 32 * (v1 % 2) + 16 * (v0 % 2) +
      8 * (v3 / 2 % 2) + 4 * (v2 / 2 % 2) + 2 * (v1 / 2 % 2) + (v0 / 2 % 2) := by
  simp only [genByte8, genAccessBytes, shr1, shr2, bitGet0]
  exact orBits (v3 % 2) (by omega) (v2 % 2) (by omega) (v1 % 2) (by omega)
    (v0 % 2) (by omega) (v3 / 2 % 2) (by omega) (v2 / 2 % 2) (by omega)
    (v1 / 2 % 2) (by omega) (v0 / 2 % 2) (by omega)


set_option maxRecDepth 4096 in
set_option maxHeartbeats 1600000 in
lemma extract_gen_0 : ∀ v0 : Nat, v0 < 8 → ∀ v1 : Nat, v1 < 8 → ∀ v2 : Nat, v2 < 8 →
    ∀ v3 : Nat, v3 < 8 →
    extractBlockBits (genByte6 v0 v1 v2 v3) (genByte7 v0 v1 v2 v3) (genByte8 v0 v1 v2 v3) 0 =
      ⟨(v0 >>> 2) &&& 1, (v0 >>> 1) &&& 1, v0 &&& 1, v0, true⟩ := by
  decide

set_option maxRecDepth 4096 in
set_option maxHeartbeats 1600000 in
lemma extract_gen_1 : ∀ v0 : Nat, v0 < 8 → ∀ v1 : Nat, v1 < 8 → ∀ v2 : Nat, v2 < 8 →
    ∀ v3 : Nat, v3 < 8 →
    extractBlockBits (genByte6 v0 v1 v2 v3) (genByte7 v0 v1 v2 v3) (genByte8 v0 v1 v2 v3) 1 =
      ⟨(v1 >>> 2) &&& 1, (v1 >>> 1) &&& 1, v1 &&& 1, v1, true⟩ := by
  decide

set_option maxRecDepth 4096 in
set_option maxHeartbeats 1600000 in
lemma extract_gen_2 : ∀ v0 : Nat, v0 < 8 → ∀ v1 : Nat, v1 < 8 → ∀ v2 : Nat, v2 < 8 →
    ∀ v3 : Nat, v3 < 8 →
    extractBlockBits (genByte6 v0 v1 v2 v3) (genByte7 v0 v1 v2 v3) (genByte8 v0 v1 v2 v3) 2 =
      ⟨(v2 >>> 2) &&& 1, (v2 >>> 1) &&& 1, v2 &&& 1, v2, true⟩ := by
  decide

set_option maxRecDepth 4096 in
set_option maxHeartbeats 1600000 in
lemma extract_gen_3 : ∀ v0 : Nat, v0 < 8 → ∀ v1 : Nat, v1 < 8 → ∀ v2 : Nat, v2 < 8 →
    ∀ v3 : Nat, v3 < 8 →
    extractBlockBits (genByte6 v0 v1 v2 v3) (genByte7 v0 v1 v2 v3) (genByte8 v0 v1 v2 v3) 3 =
      ⟨(v3 >>> 2) &&& 1, (v3 >>> 1) &&& 1, v3 &&& 1, v3, true⟩ := by
  decide

lemma genBytes_lt {v0 v1 v2 v3 : Nat} (h0 : v0 < 8) (h1 : v1 < 8) (h2 : v2 < 8) (h3 : v3 < 8) :
    genByte6 v0 v1 v2 v3 < 256 ∧ genByte7 v0 v1 v2 v3 < 256 ∧ genByte8 v0 v1 v2 v3 < 256 := by
  rw [genByte6_eq, genByte7_eq, genByte8_eq]
  refine ⟨by omega, by omega, by omega⟩

lemma bytes_rt : ∀ v0 : Nat, v0 < 8 → ∀ v1 : Nat, v1 < 8 → ∀ v2 : Nat, v2 < 8 → ∀ v3 : Nat, v3 < 8 →
    (extractBlockBits (genByte6 v0 v1 v2 v3) (genByte7 v0 v1 v2 v3) (genByte8 v0 v1 v2 v3) 0 =
      ⟨(v0 >>> 2) &&& 1, (v0 >>> 1) &&& 1, v0 &&& 1, v0, true⟩) ∧
    (extractBlockBits (genByte6 v0 v1 v2 v3) (genByte7 v0 v1 v2 v3) (genByte8 v0 v1 v2 v3) 1 =
      ⟨(v1 >>> 2) &&& 1, (v1 >>> 1) &&& 1, v1 &&& 1, v1, true⟩) ∧
    (extractBlockBits (genByte6 v0 v1 v2 v3) (genByte7 v0 v1 v2 v3) (genByte8 v0 v1 v2 v3) 2 =
      ⟨(v2 >>> 2) &&& 1, (v2 >>> 1) &&& 1, v2 &&& 1, v2, true⟩) ∧
    (extractBlockBits (genByte6 v0 v1 v2 v3) (genByte7 v0 v1 v2 v3) (genByte8 v0 v1 v2 v3) 3 =
      ⟨(v3 >>> 2) &&& 1, (v3 >>> 1) &&& 1, v3 &&& 1, v3, true⟩) ∧
    genByte6 v0 v1 v2 v3 < 256 ∧ genByte7 v0 v1 v2 v3 < 256 ∧ genByte8 v0 v1 v2 v3 < 256 := by
  intro v0 h0 v1 h1 v2 h2 v3 h3
  obtain ⟨l6, l7, l8⟩ := genBytes_lt h0 h1 h2 h3
  exact ⟨extract_gen_0 v0 h0 v1 h1 v2 h2 v3 h3, extract_gen_1 v0 h0 v1 h1 v2 h2 v3 h3,
    extract_gen_2 v0 h0 v1 h1 v2 h2 v3 h3, extract_gen_3 v0 h0 v1 h1 v2 h2 v3 h3, l6, l7, l8⟩


lemma complementErrors_nil_iff (b6 b7 b8 : Nat) :
    accessBitsComplementErrors b6 b7 b8 = [] ↔
      ((extractBlockBits b6 b7 b8 0).valid = true ∧ (extractBlockBits b6 b7 b8 1).valid = true ∧
       (extractBlockBits b6 b7 b8 2).valid = true ∧ (extractBlockBits b6 b7 b8 3).valid = true) := by
  show (List.range 4).flatMap _ = [] ↔ _
  rw [show List.range 4 = [0, 1, 2, 3] from rfl]
  simp [extractBlockBits, List.append_eq_nil, apply_ite (fun l : List (Nat × Nat) => l = [])]
  tauto

set_option maxRecDepth 4096 in
lemma byteToHex_isHex : ∀ b : Nat, b < 256 → (byteToHex b).all isHexDigit = true := by
  decide

set_option maxRecDepth 4096 in
lemma byteToHex_toUpper : ∀ b : Nat, b < 256 → (byteToHex b).map Char.toUpper = byteToHex b := by
  decide

lemma hexByteAt_hex3_0 {b6 b7 b8 : Nat} (h6 : b6 < 256) :
    hexByteAt (byteToHex b6 ++ byteToHex b7 ++ byteToHex b8) 0 = b6 := by
  show ((parseIntHex (byteToHex b6)).getD 0).toNat = b6
  rw [parseIntHex_byteToHex b6 h6]
  simp

lemma hexByteAt_hex3_2 {b6 b7 b8 : Nat} (h7 : b7 < 256) :
    hexByteAt (byteToHex b6 ++ byteToHex b7 ++ byteToHex b8) 2 = b7 := by
  show ((parseIntHex (byteToHex b7)).getD 0).toNat = b7
  rw [parseIntHex_byteToHex b7 h7]
  simp

lemma hexByteAt_hex3_4 {b6 b7 b8 : Nat} (h8 : b8 < 256) :
    hexByteAt (byteToHex b6 ++ byteToHex b7 ++ byteToHex b8) 4 = b8 := by
  show ((parseIntHex (byteToHex b8)).getD 0).toNat = b8
  rw [parseIntHex_byteToHex b8 h8]
  simp

lemma validateAccessBits_hex3 {b6 b7 b8 : Nat} (h6 : b6 < 256) (h7 : b7 < 256) (h8 : b8 < 256) :
    validateAccessBits (byteToHex b6 ++ byteToHex b7 ++ byteToHex b8) =
      if accessBitsComplementErrors b6 b7 b8 = [] then ⟨true, []⟩
      else ⟨false, accessBitsComplementErrors b6 b7 b8⟩ := by
  have hlen : (byteToHex b6 ++ byteToHex b7 ++ byteToHex b8).length = 6 := rfl
  have hhex : (byteToHex b6 ++ byteToHex b7 ++ byteToHex b8).all isHexDigit = true := by
    simp [List.all_append, byteToHex_isHex b6 h6, byteToHex_isHex b7 h7, byteToHex_isHex b8 h8]
  have hup : (byteToHex b6 ++ byteToHex b7 ++ byteToHex b8).map Char.toUpper =
      byteToHex b6 ++ byteToHex b7 ++ byteToHex b8 := by
    simp [List.map_append, byteToHex_toUpper b6 h6, byteToHex_toUpper b7 h7, byteToHex_toUpper b8 h8]
  unfold validateAccessBits
  rw [hlen, hup]
  simp only [hhex]
  rw [hexByteAt_hex3_0 h6, hexByteAt_hex3_2 h7, hexByteAt_hex3_4 h8]
  norm_num

lemma parseAccessBitsByBlock_consistent {b6 b7 b8 : Nat}
    (h6 : b6 < 256) (h7 : b7 < 256) (h8 : b8 < 256)
    (hcons : accessBitsComplementErrors b6 b7 b8 = []) :
    parseAccessBitsByBlock (byteToHex b6 ++ byteToHex b7 ++ byteToHex b8) =
      { rawBytes := (b6, b7, b8)
        block0 := ⟨extractBlockBits b6 b7 b8 0,
          getPermissionsByBitsData (extractBlockBits b6 b7 b8 0).c1
            (extractBlockBits b6 b7 b8 0).c2 (extractBlockBits b6 b7 b8 0).c3⟩
        block1 := ⟨extractBlockBits b6 b7 b8 1,
          getPermissionsByBitsData (extractBlockBits b6 b7 b8 1).c1
            (extractBlockBits b6 b7 b8 1).c2 (extractBlockBits b6 b7 b8 1).c3⟩
        block2 := ⟨extractBlockBits b6 b7 b8 2,
          getPermissionsByBitsData (extractBlockBits b6 b7 b8 2).c1
            (extractBlockBits b6 b7 b8 2).c2 (extractBlockBits b6 b7 b8 2).c3⟩
        trailer := ⟨extractBlockBits b6 b7 b8 3,
          getPermissionsByBitsTrailer (extractBlockBits b6 b7 b8 3).c1
            (extractBlockBits b6 b7 b8 3).c2 (extractBlockBits b6 b7 b8 3).c3⟩
        isValidFormat := true } := by
  have hval : validateAccessBits (byteToHex b6 ++ byteToHex b7 ++ byteToHex b8) = ⟨true, []⟩ := by
    rw [validateAccessBits_hex3 h6 h7 h8, if_pos hcons]
  have hpad : padStart (byteToHex b6 ++ byteToHex b7 ++ byteToHex b8) 6 '0' =
      byteToHex b6 ++ byteToHex b7 ++ byteToHex b8 := by
    have hlen2 : ∀ b : Nat, (byteToHex b).length = 2 := fun _ => rfl
    simp [padStart, hlen2]
  simp only [parseAccessBitsByBlock, hval, if_pos, hpad]
  rw [hexByteAt_hex3_0 h6, hexByteAt_hex3_2 h7, hexByteAt_hex3_4 h8]

lemma parseAccessBitsByBlock_invalid {s : Str} (h : (validateAccessBits s).valid = false) :
    parseAccessBitsByBlock s = parseAccessBitsByBlock (generateValidAccessBits ("default".data)) := by
  have hdef : validateAccessBits (generateValidAccessBits ("default".data)) =
      ⟨true, []⟩ := by decide
  simp [parseAccessBitsByBlock, h, hdef]

lemma generateAccessBitsByBlocks_ok {b0 b1 b2 b3 : Int}
    (h0 : 0 ≤ b0 ∧ b0 ≤ 7) (h1 : 0 ≤ b1 ∧ b1 ≤ 7) (h2 : 0 ≤ b2 ∧ b2 ≤ 7) (h3 : 0 ≤ b3 ∧ b3 ≤ 7) :
    generateAccessBitsByBlocks b0 b1 b2 b3 =
      .ok (byteToHex (genByte6 b0.toNat b1.toNat b2.toNat b3.toNat) ++
        byteToHex (genByte7 b0.toNat b1.toNat b2.toNat b3.toNat) ++
        byteToHex (genByte8 b0.toNat b1.toNat b2.toNat b3.toNat)) := by
  have hv : findRangeViolation 0 [b0, b1, b2, b3] = none := by
    simp only [findRangeViolation]
    rw [if_neg (by omega), if_neg (by omega), if_neg (by omega), if_neg (by omega)]
  unfold generateAccessBitsByBlocks
  rw [hv]
  rfl


lemma testBit_iff (x i : Nat) : x.testBit i = ((x >>> i) &&& 1 == 1) := by
  rw [Nat.testBit_to_div_mod, Nat.shiftRight_eq_div_pow, Nat.and_one_is_mod]
  by_cases h : x / 2 ^ i % 2 = 1 <;> simp [h]

lemma beq_one_compl {x y : Nat} (hx : x ≤ 1) (hy : y ≤ 1) (h : y = 1 - x) :
    (x == 1) = !(y == 1) := by
  have hc : (x = 0 ∧ y = 1) ∨ (x = 1 ∧ y = 0) := by omega
  rcases hc with ⟨hx0, hy1⟩ | ⟨hx1, hy0⟩ <;> subst_vars <;> rfl

lemma and_one_le_one (x : Nat) : x &&& 1 ≤ 1 := by
  rw [Nat.and_one_is_mod]
  omega

lemma layout_of_extract {b6 b7 b8 v n : Nat}
    (he : extractBlockBits b6 b7 b8 n = ⟨(v >>> 2) &&& 1, (v >>> 1) &&& 1, v &&& 1, v, true⟩) :
    b6.testBit n = !v.testBit 2 ∧ b6.testBit (n + 4) = !v.testBit 1 ∧
    b7.testBit n = !v.testBit 0 ∧ b7.testBit (n + 4) = v.testBit 2 ∧
    b8.testBit n = v.testBit 1 ∧ b8.testBit (n + 4) = v.testBit 0 := by
  have h1 := congrArg SlotBits.c1 he
  have h2 := congrArg SlotBits.c2 he
  have h3 := congrArg SlotBits.c3 he
  have hval := congrArg SlotBits.valid he
  simp only [extractBlockBits] at h1 h2 h3 hval
  rw [Bool.and_eq_true, Bool.and_eq_true] at hval
  obtain ⟨⟨e1, e2⟩, e3⟩ := hval
  rw [beq_iff_eq] at e1 e2 e3
  have hadd : 4 + n = n + 4 := by omega
  rw [hadd] at h1 e1 h3 e3 e2
  have hz : v >>> 0 = v := Nat.shiftRight_zero
  refine ⟨?_, ?_, ?_, ?_, ?_, ?_⟩
  · rw [testBit_iff, testBit_iff]
    exact beq_one_compl (and_one_le_one _) (and_one_le_one _) (by omega)
  · rw [testBit_iff, testBit_iff]
    exact beq_one_compl (and_one_le_one _) (and_one_le_one _) (by omega)
  · rw [testBit_iff, testBit_iff, hz]
    exact beq_one_compl (and_one_le_one _) (and_one_le_one _) (by omega)
  · rw [testBit_iff, testBit_iff, h1]
  · rw [testBit_iff, testBit_iff, h2]
  · rw [testBit_iff, testBit_iff, hz, h3]


lemma isHexDigit_not_term {c : Char} (h : isHexDigit c = true) : isLineTerminator c = false := by
  simp only [isHexDigit, hexCharVal] at h
  simp only [isLineTerminator]
  split_ifs at h with h1 h2 h3
  · simp
    omega
  · simp
    omega
  · simp
    omega
  · simp at h

lemma matchPairs_length (s : Str) (h : ∀ c ∈ s, isLineTerminator c = false) :
    (matchPairs s).length = s.length / 2 := by
  induction s using matchPairs.induct with
  | case1 => simp [matchPairs]
  | case2 c => simp [matchPairs]
  | case3 c1 c2 rest h1 ih =>
    rw [h c1 (by simp)] at h1
    exact absurd h1 (by simp)
  | case4 c1 c2 rest h1 h2 ih =>
    rw [h c2 (by simp)] at h2
    exact absurd h2 (by simp)
  | case5 c1 c2 rest h1 h2 ih =>
    have : matchPairs (c1 :: c2 :: rest) = [c1, c2] :: matchPairs rest := by
      rw [matchPairs, if_neg (by simp [h1]), if_neg (by simp [h2])]
    rw [this]
    have := ih (fun c hc => h c (by simp [hc]))
    simp only [List.length_cons, this, List.length_cons]
    omega


/-- Claim C1 counterexample: the round trip does not return the signed input
value itself. Encoding the int32 value -1 with address 5 and decoding yields
the unsigned value 4294967295, which differs from -1. -/
theorem c1_counterexample :
    (parseValueBlock (createValueBlock (-1) 5)).map (fun r => r.value) = some 4294967295 ∧
      ((4294967295 : Int) ≠ -1) := by
  constructor
  · rfl
  · decide


/-- Claim C1 (amended): for every int32 value `v` and every address below
256, `parseValueBlock (createValueBlock v a)` returns a record whose value
is the unsigned 32-bit representation `toUint32 v` (equal to `v` exactly
when `v` is nonnegative), whose address fields all equal `a` and its
complement, whose `isValid` is true, and whose four validation flags are
all false. -/
theorem valueBlock_roundTrip (v : Int) (a : Nat)
    (hv1 : -2147483648 ≤ v) (hv2 : v < 2147483648) (ha : a < 256) :
    parseValueBlock (createValueBlock v (a : Int)) = some {
      value := toUint32 v
      valueInverted := 4294967295 - toUint32 v
      valueBackup := toUint32 v
      addr := some (a : Int)
      addrInverted := some ((255 - a : Nat) : Int)
      addrBackup := some (a : Int)
      addrInvertedBackup := some ((255 - a : Nat) : Int)
      isValid := true
      errValueInverted := false
      errValueBackup := false
      errAddrInverted := false
      errAddrBackup := false } := by
  have hu := toUint32_lt v
  have hmem : ∀ x ∈ [toUint32 v % 256, toUint32 v / 256 % 256, toUint32 v / 65536 % 256,
      toUint32 v / 16777216 % 256,
      (4294967295 - toUint32 v) % 256, (4294967295 - toUint32 v) / 256 % 256,
      (4294967295 - toUint32 v) / 65536 % 256, (4294967295 - toUint32 v) / 16777216 % 256,
      toUint32 v % 256, toUint32 v / 256 % 256, toUint32 v / 65536 % 256,
      toUint32 v / 16777216 % 256,
      a, 255 - a, a, 255 - a], x < 256 := by
    intro x hx
    simp at hx
    rcases hx with h | h | h | h | h | h | h | h | h | h <;> omega
  have d1 : leN (toUint32 v % 256) (toUint32 v / 256 % 256) (toUint32 v / 65536 % 256)
      (toUint32 v / 16777216 % 256) = toUint32 v := by
    unfold leN; omega
  have d2 : leN ((4294967295 - toUint32 v) % 256) ((4294967295 - toUint32 v) / 256 % 256)
      ((4294967295 - toUint32 v) / 65536 % 256) ((4294967295 - toUint32 v) / 16777216 % 256) =
      4294967295 - toUint32 v := by
    unfold leN; omega
  rw [createValueBlock_eq_bytes v a ha, parseValueBlock_hex _ _ _ _ _ _ _ _ _ _ _ _ _ _ _ _ hmem,
    d1, d2, xor_compl32 hu, xor_compl8 ha]
  simp


/-- Witness for claim C1 at the concrete input value 100, address 5. -/
theorem c1_witness :
    parseValueBlock (createValueBlock 100 (5 : Int)) = some {
      value := toUint32 100
      valueInverted := 4294967295 - toUint32 100
      valueBackup := toUint32 100
      addr := some ((5 : Nat) : Int)
      addrInverted := some ((255 - 5 : Nat) : Int)
      addrBackup := some ((5 : Nat) : Int)
      addrInvertedBackup := some ((255 - 5 : Nat) : Int)
      isValid := true
      errValueInverted := false
      errValueBackup := false
      errAddrInverted := false
      errAddrBackup := false } := by
  have := valueBlock_roundTrip 100 5 (by norm_num) (by norm_num) (by norm_num)
  norm_num at this ⊢
  exact this


/-- Claim C10: for every 16-byte input accepted by `parseValueBlock`, the
returned `isValid` is true exactly when all four validation flags are
false, and each flag is the exact negation of its redundancy check:
`errValueInverted` iff `value XOR valueInverted` is not 0xFFFFFFFF under
32-bit unsigned arithmetic, `errValueBackup` iff the value differs from its
backup copy, `errAddrInverted` iff byte 12 XOR byte 13 is not 0xFF, and
`errAddrBackup` iff either address backup byte differs from its
original. -/
theorem valueBlock_flags_exact (b0 b1 b2 b3 b4 b5 b6 b7 b8 b9 b10 b11 b12 b13 b14 b15 : Nat)
    (h : ∀ x ∈ [b0,b1,b2,b3,b4,b5,b6,b7,b8,b9,b10,b11,b12,b13,b14,b15], x < 256) :
    ∃ r, parseValueBlock (bytesToHex
        [b0,b1,b2,b3,b4,b5,b6,b7,b8,b9,b10,b11,b12,b13,b14,b15]) = some r ∧
      (r.isValid = true ↔ (r.errValueInverted = false ∧ r.errValueBackup = false ∧
        r.errAddrInverted = false ∧ r.errAddrBackup = false)) ∧
      (r.errValueInverted = true ↔ r.value ^^^ r.valueInverted ≠ 4294967295) ∧
      (r.errValueBackup = true ↔ r.value ≠ r.valueBackup) ∧
      (r.errAddrInverted = true ↔ b12 ^^^ b13 ≠ 255) ∧
      (r.errAddrBackup = true ↔ (b12 ≠ b14 ∨ b13 ≠ b15)) ∧
      r.value = leN b0 b1 b2 b3 ∧ r.valueInverted = leN b4 b5 b6 b7 ∧
      r.valueBackup = leN b8 b9 b10 b11 := by
  refine ⟨_, parseValueBlock_hex b0 b1 b2 b3 b4 b5 b6 b7 b8 b9 b10 b11 b12 b13 b14 b15 h, ?_⟩
  simp [beq_iff_eq, not_or]
  tauto

/-- Witness for claim C10 at the 16 bytes of an encoded value block. -/
theorem valueBlock_flags_exact_witness :
    ∃ r, parseValueBlock (bytesToHex
        [100, 0, 0, 0, 155, 255, 255, 255, 100, 0, 0, 0, 5, 250, 5, 250]) = some r ∧
      (r.isValid = true ↔ (r.errValueInverted = false ∧ r.errValueBackup = false ∧
        r.errAddrInverted = false ∧ r.errAddrBackup = false)) ∧
      (r.errValueInverted = true ↔ r.value ^^^ r.valueInverted ≠ 4294967295) ∧
      (r.errValueBackup = true ↔ r.value ≠ r.valueBackup) ∧
      (r.errAddrInverted = true ↔ 5 ^^^ 250 ≠ 255) ∧
      (r.errAddrBackup = true ↔ ((5 : Nat) ≠ 5 ∨ (250 : Nat) ≠ 250)) ∧
      r.value = leN 100 0 0 0 ∧ r.valueInverted = leN 155 255 255 255 ∧
      r.valueBackup = leN 100 0 0 0 :=
  valueBlock_flags_exact 100 0 0 0 155 255 255 255 100 0 0 0 5 250 5 250 (by decide)


/-- Claim C2: for all permission codes `c0 c1 c2 c3` in `[0, 7]`, decoding
`generateAccessBitsByBlocks c0 c1 c2 c3` with `parseAccessBitsByBlock`
reports the complement bits consistent for all four slots and recovers
exactly the codes for slots 0 through 3. -/
theorem accessBits_roundTrip (c0 c1 c2 c3 : Fin 8) :
    ∃ s, generateAccessBitsByBlocks ((c0 : Nat) : Int) ((c1 : Nat) : Int)
        ((c2 : Nat) : Int) ((c3 : Nat) : Int) = .ok s ∧
      (parseAccessBitsByBlock s).block0.bits.value = c0 ∧
      (parseAccessBitsByBlock s).block1.bits.value = c1 ∧
      (parseAccessBitsByBlock s).block2.bits.value = c2 ∧
      (parseAccessBitsByBlock s).trailer.bits.value = c3 ∧
      (parseAccessBitsByBlock s).block0.bits.valid = true ∧
      (parseAccessBitsByBlock s).block1.bits.valid = true ∧
      (parseAccessBitsByBlock s).block2.bits.valid = true ∧
      (parseAccessBitsByBlock s).trailer.bits.valid = true := by
  obtain ⟨e0, e1, e2, e3, l6, l7, l8⟩ :=
    bytes_rt c0 c0.isLt c1 c1.isLt c2 c2.isLt c3 c3.isLt
  have ht0 : ((c0 : Nat) : Int).toNat = (c0 : Nat) := by omega
  have ht1 : ((c1 : Nat) : Int).toNat = (c1 : Nat) := by omega
  have ht2 : ((c2 : Nat) : Int).toNat = (c2 : Nat) := by omega
  have ht3 : ((c3 : Nat) : Int).toNat = (c3 : Nat) := by omega
  have hcons : accessBitsComplementErrors (genByte6 c0 c1 c2 c3) (genByte7 c0 c1 c2 c3)
      (genByte8 c0 c1 c2 c3) = [] := by
    rw [complementErrors_nil_iff, e0, e1, e2, e3]
    exact ⟨rfl, rfl, rfl, rfl⟩
  refine ⟨byteToHex (genByte6 c0 c1 c2 c3) ++ byteToHex (genByte7 c0 c1 c2 c3) ++
    byteToHex (genByte8 c0 c1 c2 c3), ?_, ?_⟩
  · rw [generateAccessBitsByBlocks_ok (by omega) (by omega) (by omega) (by omega)]
    rw [ht0, ht1, ht2, ht3]
  · rw [parseAccessBitsByBlock_consistent l6 l7 l8 hcons, e0, e1, e2, e3]
    refine ⟨rfl, rfl, rfl, rfl, rfl, rfl, rfl, rfl⟩


/-- Claim C6 (amended): for every encoded access-bits field and every block
slot `n`, byte b6 holds NOT c1 of slot `n` at bit `n` and NOT c2 at bit
`n + 4`; byte b7 holds NOT c3 at bit `n` and c1 at bit `n + 4` (the claim
stated these two positions the other way around); byte b8 holds c2 at bit
`n` and c3 at bit `n + 4`; and `createAccessBitsFromPermissions` produces
the same three bytes from the bit triples. -/
theorem accessBits_bit_layout (v0 v1 v2 v3 : Fin 8) (n : Fin 4) :
    Nat.testBit (genByte6 v0 v1 v2 v3) n = !Nat.testBit (slotCode v0 v1 v2 v3 n) 2 ∧
    Nat.testBit (genByte6 v0 v1 v2 v3) (n + 4) = !Nat.testBit (slotCode v0 v1 v2 v3 n) 1 ∧
    Nat.testBit (genByte7 v0 v1 v2 v3) n = !Nat.testBit (slotCode v0 v1 v2 v3 n) 0 ∧
    Nat.testBit (genByte7 v0 v1 v2 v3) (n + 4) = Nat.testBit (slotCode v0 v1 v2 v3 n) 2 ∧
    Nat.testBit (genByte8 v0 v1 v2 v3) n = Nat.testBit (slotCode v0 v1 v2 v3 n) 1 ∧
    Nat.testBit (genByte8 v0 v1 v2 v3) (n + 4) = Nat.testBit (slotCode v0 v1 v2 v3 n) 0 ∧
    createAccessBitsFromPermissions (bitsOf v0) (bitsOf v1) (bitsOf v2) (bitsOf v3) =
      byteToHex (genByte6 v0 v1 v2 v3) ++ byteToHex (genByte7 v0 v1 v2 v3) ++
        byteToHex (genByte8 v0 v1 v2 v3) := by
  obtain ⟨e0, e1, e2, e3, l6, l7, l8⟩ :=
    bytes_rt v0 v0.isLt v1 v1.isLt v2 v2.isLt v3 v3.isLt
  fin_cases n
  · obtain ⟨a, b, c, d, e, f⟩ := layout_of_extract e0
    exact ⟨a, b, c, d, e, f, rfl⟩
  · obtain ⟨a, b, c, d, e, f⟩ := layout_of_extract e1
    exact ⟨a, b, c, d, e, f, rfl⟩
  · obtain ⟨a, b, c, d, e, f⟩ := layout_of_extract e2
    exact ⟨a, b, c, d, e, f, rfl⟩
  · obtain ⟨a, b, c, d, e, f⟩ := layout_of_extract e3
    exact ⟨a, b, c, d, e, f, rfl⟩

/-- Claim C6 counterexample: for the encoding of codes (4, 0, 0, 0), byte
b7 is 0x1F, whose bit 1 is set although c1 of slot 1 (bit 2 of code 0) is
clear, refuting the claimed layout b7 bit n = c1 of slot n. -/
theorem c6_counterexample :
    generateAccessBitsByBlocks 4 0 0 0 = .ok ("FE1F00".data) ∧
    genByte7 4 0 0 0 = 31 ∧ Nat.testBit 31 1 = true ∧ Nat.testBit 0 2 = false := by
  refine ⟨rfl, rfl, rfl, rfl⟩


/-- Claim C5 (amended): for every 3-byte input whose complement bits are
all consistent, `parseAccessBitsByBlock` returns the triples extracted from
that same input with all four per-slot consistency flags true; for every
3-byte input with any complement inconsistency it silently substitutes the
default access bits and returns their decode instead of reporting the
inconsistency. It never fails. -/
theorem accessBits_decode_reports_or_repairs (b6 b7 b8 : Nat)
    (h6 : b6 < 256) (h7 : b7 < 256) (h8 : b8 < 256) :
    (accessBitsComplementErrors b6 b7 b8 = [] →
      parseAccessBitsByBlock (byteToHex b6 ++ byteToHex b7 ++ byteToHex b8) =
        { rawBytes := (b6, b7, b8)
          block0 := ⟨extractBlockBits b6 b7 b8 0,
            getPermissionsByBitsData (extractBlockBits b6 b7 b8 0).c1
              (extractBlockBits b6 b7 b8 0).c2 (extractBlockBits b6 b7 b8 0).c3⟩
          block1 := ⟨extractBlockBits b6 b7 b8 1,
            getPermissionsByBitsData (extractBlockBits b6 b7 b8 1).c1
              (extractBlockBits b6 b7 b8 1).c2 (extractBlockBits b6 b7 b8 1).c3⟩
          block2 := ⟨extractBlockBits b6 b7 b8 2,
            getPermissionsByBitsData (extractBlockBits b6 b7 b8 2).c1
              (extractBlockBits b6 b7 b8 2).c2 (extractBlockBits b6 b7 b8 2).c3⟩
          trailer := ⟨extractBlockBits b6 b7 b8 3,
            getPermissionsByBitsTrailer (extractBlockBits b6 b7 b8 3).c1
              (extractBlockBits b6 b7 b8 3).c2 (extractBlockBits b6 b7 b8 3).c3⟩
          isValidFormat := true } ∧
      ((extractBlockBits b6 b7 b8 0).valid = true ∧ (extractBlockBits b6 b7 b8 1).valid = true ∧
       (extractBlockBits b6 b7 b8 2).valid = true ∧ (extractBlockBits b6 b7 b8 3).valid = true)) ∧
    (accessBitsComplementErrors b6 b7 b8 ≠ [] →
      parseAccessBitsByBlock (byteToHex b6 ++ byteToHex b7 ++ byteToHex b8) =
        parseAccessBitsByBlock (generateValidAccessBits ("default".data))) := by
  constructor
  · intro hcons
    exact ⟨parseAccessBitsByBlock_consistent h6 h7 h8 hcons,
      (complementErrors_nil_iff b6 b7 b8).mp hcons⟩
  · intro hne
    apply parseAccessBitsByBlock_invalid
    rw [validateAccessBits_hex3 h6 h7 h8, if_neg hne]

/-- Witness for claim C5 at the consistent default bytes 0xFF 0x0F 0x00. -/
theorem c5_witness_statement :
    (parseAccessBitsByBlock (byteToHex 255 ++ byteToHex 15 ++ byteToHex 0)).rawBytes =
      (255, 15, 0) := by
  have h := ((accessBits_decode_reports_or_repairs 255 15 0 (by norm_num) (by norm_num)
    (by norm_num)).1 (by decide)).1
  rw [h]

/-- Claim C5 counterexample: on the inconsistent input "000000" the decoder
does not report the inconsistency of those bytes; it substitutes the
default access bits FF0F00 and returns their decode with all consistency
flags true. -/
theorem c5_counterexample :
    (parseAccessBitsByBlock ("000000".data)).rawBytes = (255, 15, 0) ∧
    (parseAccessBitsByBlock ("000000".data)).trailer.bits.valid = true ∧
    accessBitsComplementErrors 0 0 0 ≠ [] ∧
    generateValidAccessBits ("default".data) = "FF0F00".data := by
  refine ⟨rfl, rfl, by decide, rfl⟩

/-- Claim C7: encoding with any permission code outside `[0, 7]` fails with
a range error naming the first offending slot and its value, before any
output is produced; in particular the uniform calls with code 8 and with
code -1 fail on slot 0. -/
theorem encode_range_rejection :
    generateAccessBitsByBlocks 8 8 8 8 = .error (.rangeError 0 8) ∧
    generateAccessBitsByBlocks (-1) (-1) (-1) (-1) = .error (.rangeError 0 (-1)) ∧
    ∀ b0 b1 b2 b3 : Int,
      ((b0 < 0 ∨ 7 < b0) ∨ (b1 < 0 ∨ 7 < b1) ∨ (b2 < 0 ∨ 7 < b2) ∨ (b3 < 0 ∨ 7 < b3)) →
      ∃ i v, generateAccessBitsByBlocks b0 b1 b2 b3 = .error (.rangeError i v) ∧ i < 4 ∧
        (v < 0 ∨ 7 < v) ∧ v = [b0, b1, b2, b3].getD i 0 := by
  refine ⟨rfl, rfl, ?_⟩
  intro b0 b1 b2 b3 h
  by_cases h0 : b0 < 0 ∨ 7 < b0
  · have hv : findRangeViolation 0 [b0, b1, b2, b3] = some (0, b0) := by
      simp only [findRangeViolation]
      rw [if_pos h0]
    refine ⟨0, b0, ?_, by omega, h0, rfl⟩
    unfold generateAccessBitsByBlocks
    rw [hv]
  by_cases h1 : b1 < 0 ∨ 7 < b1
  · have hv : findRangeViolation 0 [b0, b1, b2, b3] = some (1, b1) := by
      simp only [findRangeViolation]
      rw [if_neg h0, if_pos h1]
    refine ⟨1, b1, ?_, by omega, h1, rfl⟩
    unfold generateAccessBitsByBlocks
    rw [hv]
  by_cases h2 : b2 < 0 ∨ 7 < b2
  · have hv : findRangeViolation 0 [b0, b1, b2, b3] = some (2, b2) := by
      simp only [findRangeViolation]
      rw [if_neg h0, if_neg h1, if_pos h2]
    refine ⟨2, b2, ?_, by omega, h2, rfl⟩
    unfold generateAccessBitsByBlocks
    rw [hv]
  by_cases h3 : b3 < 0 ∨ 7 < b3
  · have hv : findRangeViolation 0 [b0, b1, b2, b3] = some (3, b3) := by
      simp only [findRangeViolation]
      rw [if_neg h0, if_neg h1, if_neg h2, if_pos h3]
    refine ⟨3, b3, ?_, by omega, h3, rfl⟩
    unfold generateAccessBitsByBlocks
    rw [hv]
  exact absurd h (by tauto)

/-- Witness for claim C7 at the concrete out-of-range input (8, 0, 0, 0). -/
theorem encode_range_rejection_witness :
    ((8 : Int) < 0 ∨ (7 : Int) < 8) ∧
    ∃ i v, generateAccessBitsByBlocks 8 0 0 0 = .error (.rangeError i v) ∧ i < 4 ∧
      (v < 0 ∨ 7 < v) ∧ v = [(8 : Int), 0, 0, 0].getD i 0 := by
  refine ⟨by norm_num, ?_⟩
  exact encode_range_rejection.2.2 8 0 0 0 (Or.inl (by norm_num))


/-- Claim C8 (amended): `parseValueBlock` signals failure by returning
`none` for every input whose length is not 32 hex characters (16 bytes) and
always returns a record for 32-character hex inputs, never failing;
`validateAccessBits` reports invalid for every input whose length is not 6
hex characters (3 bytes); but `parseAccessBitsByBlock` does not reject
wrong-length input, substituting the default access bits instead. -/
theorem decode_length_behavior :
    (∀ s : Str, s.length ≠ 32 → parseValueBlock s = none) ∧
    (∀ s : Str, s.length = 32 → (∀ c ∈ s, isHexDigit c = true) →
      (parseValueBlock s).isSome = true) ∧
    (∀ s : Str, s.length ≠ 6 → validateAccessBits s = ⟨false, []⟩) ∧
    parseAccessBitsByBlock ("0780".data) =
      parseAccessBitsByBlock (generateValidAccessBits ("default".data)) := by
  refine ⟨?_, ?_, ?_, ?_⟩
  · intro s h
    simp [parseValueBlock, h]
  · intro s hlen hhex
    have hterm : ∀ c ∈ s, isLineTerminator c = false :=
      fun c hc => isHexDigit_not_term (hhex c hc)
    have hmp : (matchPairs s).length = 16 := by
      rw [matchPairs_length s hterm, hlen]
    unfold parseValueBlock
    rw [if_neg (by omega)]
    rw [if_neg (by simp [hmp])]
    simp
  · intro s h
    simp [validateAccessBits, h]
  · exact parseAccessBitsByBlock_invalid (by decide)

/-- Witness for claim C8 at the concrete short input "00". -/
theorem decode_length_behavior_witness :
    (("00".data : Str).length ≠ 32) ∧ parseValueBlock ("00".data) = none := by
  refine ⟨by decide, decode_length_behavior.1 ("00".data) (by decide)⟩

/-- Claim C8 counterexample: on the 2-byte input "0780" the access-bits
decoder does not raise a length error; it returns a normal structure built
from the substituted default bytes. -/
theorem c8_counterexample :
    ("0780".data : Str).length = 4 ∧
    (parseAccessBitsByBlock ("0780".data)).isValidFormat = true ∧
    (parseAccessBitsByBlock ("0780".data)).rawBytes = (255, 15, 0) := by
  refine ⟨rfl, rfl, rfl⟩

/-- Claim C3: the `DATA_BLOCK_ACCESS_CONDITIONS` table and the second
revision `getPermissionsByBits` data branch built on it return exactly the
Table 6 row of the spec for every code in `[0, 7]`; the first revision
`getPermissionsByBits` data branch contradicts them at code 1, returning
read, write, increment and decrement all requiring Key B instead of read
KeyA-or-KeyB, write Forbidden, increment Forbidden, decrement
KeyA-or-KeyB. -/
theorem dataBlock_table_vs_spec :
    (∀ c : Fin 8, (DATA_BLOCK_ACCESS_CONDITIONS (codeKey c)).bind interpDataCondition =
      some (specDataTable c)) ∧
    (∀ c : Fin 8, interpDataCondition (⟨(getPermissionsByBitsData ((c : Nat) >>> 2 &&& 1)
      ((c : Nat) >>> 1 &&& 1) ((c : Nat) &&& 1)).read,
      (getPermissionsByBitsData ((c : Nat) >>> 2 &&& 1) ((c : Nat) >>> 1 &&& 1) ((c : Nat) &&& 1)).write,
      (getPermissionsByBitsData ((c : Nat) >>> 2 &&& 1) ((c : Nat) >>> 1 &&& 1) ((c : Nat) &&& 1)).increment,
      (getPermissionsByBitsData ((c : Nat) >>> 2 &&& 1) ((c : Nat) >>> 1 &&& 1) ((c : Nat) &&& 1)).decrement,
      ""⟩) = some (specDataTable c)) ∧
    getPermissionsByBitsV1Data 0 0 1 = ⟨"B", "B", "B", "B"⟩ ∧
    interpDataV1 (getPermissionsByBitsV1Data 0 0 1) ≠ some (specDataTable 1) ∧
    specDataTable 1 = ⟨.keyAorB, .forbidden, .forbidden, .keyAorB⟩ := by
  refine ⟨by decide, by decide, rfl, by decide, rfl⟩

/-- Claim C4: the `SECTOR_TRAILER_ACCESS_CONDITIONS` table returns exactly
the Table 7 row of the spec for every code in `[0, 7]`, with the KeyA read
permission Forbidden in every row; the first revision
`getPermissionsByBits` trailer branch contradicts this at code 0, making
Key A readable with Key A. -/
theorem trailer_table_vs_spec :
    (∀ c : Fin 8, (SECTOR_TRAILER_ACCESS_CONDITIONS (codeKey c)).bind interpTrailerCondition =
      some (specTrailerTable c)) ∧
    (∀ c : Fin 8, (SECTOR_TRAILER_ACCESS_CONDITIONS (codeKey c)).map
      (fun r => r.keyA.read) = some "禁止") ∧
    (∀ c : Fin 8, (specTrailerTable c).keyA.read = .forbidden) ∧
    getPermissionsByBitsV1Trailer 0 0 0 = ⟨"A", "禁止", "A", "B", "禁止", "B"⟩ ∧
    interpTrailerV1 (getPermissionsByBitsV1Trailer 0 0 0) ≠ some (specTrailerTable 0) ∧
    interpPerm "A" ≠ some SpecPerm.forbidden := by
  refine ⟨by decide, by decide, by decide, rfl, by decide, by decide⟩

/-- Claim C9: the sector-trailer entries of `memoryData` carry 15-byte raw
payloads (Key A, 6 bytes, plus access bits, 3 bytes, plus Key B, 6 bytes,
with no general-purpose byte), violating the 16-byte block invariant that
holds for the other blocks; both revisions of the sector 0 trailer are
affected. -/
theorem trailer_raw_not_16_bytes :
    memoryDataSector0.map (fun b => b.data.length / 2) = [16, 16, 16, 15] ∧
    trailerBlockDataV1.length / 2 = 15 ∧
    (15 : Nat) ≠ 16 ∧
    (exceptStr (generateAccessBitsByBlocks 4 4 4 0)).length = 6 := by
  refine ⟨rfl, rfl, by decide, rfl⟩



end Mifare

